import Mathlib

/-!
Verification development for the deepviz research pipeline.

The definitions below are a shallow embedding of the Go sources of the
repository: the `GenaiResearchClient` coordinator (`Execute`,
`startResearch`, `pollUntilComplete`, `checkStatus`, `cancelResearch`,
`saveResult`, `sanitizePrompt`) together with the configuration fields it
reads.  Remote HTTP traffic, the caller's context, file writes and the
pseudo-random tie-breaks of Go's `select` are captured by an explicit
environment record; time is discrete (seconds, matching the second-based
configuration of the poller).
-/

namespace Deepviz

/-- Configuration fields of `ViperConfig` that the research client reads. -/
structure ViperConfig where
  OutputDir : String
  PollInterval : Nat
  PollTimeout : Nat
deriving DecidableEq, Repr

/-- The output directory for research results: `filepath.Join(OutputDir, "research")`. -/
def ViperConfig.ResearchDir (c : ViperConfig) : String :=
  c.OutputDir ++ "/research"

/-- The `ResearchResult` record of the research client. -/
structure ResearchResult where
  InteractionID : String
  Status : String
  Content : String
  MarkdownPath : String
deriving DecidableEq, Repr

/-- One pass of the `for _, r := range prompt` loop of `sanitizePrompt`,
with the `strings.Builder` contents as the accumulator: a rune is appended
exactly when the keep-predicate holds for it. -/
def sanitizeLoop (keep : Char → Bool) : List Char → List Char → List Char
  | acc, [] => acc
  | acc, r :: rest =>
    if keep r then sanitizeLoop keep (acc ++ [r]) rest else sanitizeLoop keep acc rest

/-- The `sanitizePrompt` function: keeps a rune when `unicode.IsPrint(r) || unicode.IsSpace(r)`.
The two Go classification tables are parameters, since they belong to the Go
standard library rather than to this repository. -/
def sanitizePrompt (isPrint isSpace : Char → Bool) (prompt : String) : String :=
  String.mk (sanitizeLoop (fun r => isPrint r || isSpace r) [] prompt.data)

/-- Modelled from the spec: the shape of one interaction value returned by the
generated `interactions` client (that package is generated code outside the
repository snapshot).  The remote status call's 200 response "contains a status
field and, when applicable, an output collection from which textual content is
extracted (first text-typed output segment found)"; the create response carries
a job identifier field.  All three fields are optional pointers in the
generated Go struct. -/
structure Interaction where
  id : Option String
  status : Option String
  outputs : Option (List (Option (Option String)))
deriving DecidableEq, Repr

/-- Modelled from the spec: a decoded HTTP response of the generated client.
An output item is `some t` when `AsTextContent` succeeds (with `t` the optional
`Text` field) and `none` when the union member is not a text content.
`json200` is the parsed body, present only for a 200 response. -/
structure ApiResp where
  statusCode : Nat
  json200 : Option Interaction
  body : String
deriving DecidableEq, Repr

/-- Modelled from the spec: the generated client parses the typed `JSON200`
body only for a 200 response ("Expects a 200 response with a JSON body
containing a non-empty job identifier field"). -/
def ApiResp.wf (resp : ApiResp) : Prop :=
  resp.json200.isSome → resp.statusCode = 200

/-- The status-code check of `startResearch`: error return on any non-200 code,
then on a missing body, then on a nil or empty `Id`; otherwise the identifier. -/
def startResearch (resp : ApiResp) : Except String String :=
  if resp.statusCode ≠ 200 then
    Except.error ("API error (status " ++ toString resp.statusCode ++ "): " ++ resp.body)
  else
    match resp.json200 with
    | none => Except.error "empty response body"
    | some interaction =>
      match interaction.id with
      | none => Except.error "empty interaction ID in response"
      | some id =>
        if id = "" then Except.error "empty interaction ID in response"
        else Except.ok id

/-- The content-extraction loop of `checkStatus`: the first output for which
`AsTextContent` succeeds with a non-nil `Text` field wins; a text content whose
`Text` is nil neither sets the content nor stops the loop. -/
def firstTextContent : List (Option (Option String)) → String
  | [] => ""
  | some (some t) :: _ => t
  | _ :: rest => firstTextContent rest

/-- The response handling of `checkStatus`: non-200 and missing-body errors,
then status (empty string for a nil `Status`) and extracted content. -/
def checkStatusResp (interactionID : String) (resp : ApiResp) :
    Except String ResearchResult :=
  if resp.statusCode ≠ 200 then
    Except.error ("unexpected status code: " ++ toString resp.statusCode ++ ", body: " ++ resp.body)
  else
    match resp.json200 with
    | none => Except.error "empty response body"
    | some interaction =>
      Except.ok
        { InteractionID := interactionID
          Status := interaction.status.getD ""
          Content := firstTextContent (interaction.outputs.getD [])
          MarkdownPath := "" }

/-- The environment of one `Execute` run: the remote service's responses (or
transport errors), the time at which the caller's context is cancelled (if
ever), the pseudo-random tie-breaks of Go's `select`, and whether the markdown
write succeeds.  `getResp k` answers the k-th status request. -/
structure Env where
  createResp : Except String ApiResp
  getResp : Nat → Except String ApiResp
  cancelResp : Except String ApiResp
  cancelAt : Option Nat
  oracle : Nat → Nat
  writeOk : Bool

/-- Job creation at `Execute` level: a transport error from
`CreateInteractionWithBodyWithResponse` is wrapped, otherwise the response is
handled by `startResearch`. -/
def startResearchE (env : Env) : Except String String :=
  match env.createResp with
  | Except.error e => Except.error ("failed to create interaction: " ++ e)
  | Except.ok resp => startResearch resp

/-- The k-th `checkStatus` call: a transport error from
`GetInteractionByIdWithResponse` is wrapped, otherwise the response is handled
by `checkStatusResp`. -/
def checkStatusE (env : Env) (interactionID : String) (k : Nat) :
    Except String ResearchResult :=
  match env.getResp k with
  | Except.error e => Except.error ("failed to get interaction: " ++ e)
  | Except.ok resp => checkStatusResp interactionID resp

/-- The compensation call `cancelResearch`.  It runs under a fresh
`context.Background()` deadline, so it never reads `cancelAt`: its outcome is a
function of `cancelResp` alone. -/
def cancelResearch (env : Env) : Except String Unit :=
  match env.cancelResp with
  | Except.error e => Except.error ("failed to cancel research: " ++ e)
  | Except.ok resp =>
    if resp.statusCode ≠ 200 then
      Except.error ("cancel failed with status " ++ toString resp.statusCode ++ ": " ++ resp.body)
    else Except.ok ()

/-- The three channels of the `select` in `pollUntilComplete`. -/
inductive Chan
  | ctxDone
  | timeoutCh
  | tick
deriving DecidableEq, Repr

/-- How `pollUntilComplete` can leave its loop (`fuelOut` is an artifact of the
fuelled model and is shown unreachable for a positive interval). -/
inductive PollOutcome
  | completed (r : ResearchResult)
  | failedStatus (interactionID : String)
  | timedOut (seconds : Nat)
  | ctxErr
  | checkFailed (msg : String)
  | fuelOut
deriving DecidableEq, Repr

/-- The result of the polling phase: how it ended, the times (seconds since the
phase began) at which `checkStatus` was called, and the time of return. -/
structure PollResult where
  outcome : PollOutcome
  checkTimes : List Nat
  retTime : Nat
deriving DecidableEq, Repr

/-- The pending channels at the k-th `select`, each paired with the earliest
time it can be received from a select entered at time `now`: the context's done
channel (once `cancelAt` has passed it stays ready), the single `time.After`
timeout channel, and the next ticker delivery at `(k+1) * PollInterval`. -/
def selChans (cfg : ViperConfig) (env : Env) (k now : Nat) : List (Chan × Nat) :=
  (match env.cancelAt with
   | some tc => [(Chan.ctxDone, max tc now)]
   | none => []) ++
  [(Chan.timeoutCh, max cfg.PollTimeout now),
   (Chan.tick, max ((k + 1) * cfg.PollInterval) now)]

/-- The time at which the k-th `select` entered at `now` unblocks: the least
receive time among the pending channels. -/
def wakeTime (cfg : ViperConfig) (env : Env) (k now : Nat) : Nat :=
  (selChans cfg env k now).foldr (fun p m => min p.2 m) (max cfg.PollTimeout now)

/-- The channels ready at the moment the k-th `select` unblocks; Go picks one
of them uniformly at random, modelled by the oracle. -/
def readyChans (cfg : ViperConfig) (env : Env) (k now : Nat) : List Chan :=
  ((selChans cfg env k now).filter (fun p => p.2 = wakeTime cfg env k now)).map Prod.fst

/-- The case of the `select` that runs at the k-th iteration. -/
def chosenChan (cfg : ViperConfig) (env : Env) (k now : Nat) : Chan :=
  (readyChans cfg env k now).getD
    (env.oracle k % (readyChans cfg env k now).length) Chan.timeoutCh

/-- The loop of `pollUntilComplete`: `k` status checks have been performed and
the previous case completed at time `now`.  A ready done-channel propagates
`ctx.Err()`; a ready timeout returns the timeout error naming `PollTimeout`; a
tick runs `checkStatus`, returning on an error, on `"completed"` and on
`"failed"`, and looping on every other status. -/
def pollGo (cfg : ViperConfig) (env : Env) (interactionID : String) :
    Nat → Nat → Nat → List Nat → PollResult
  | 0, _, _, acc => { outcome := PollOutcome.fuelOut, checkTimes := acc, retTime := 0 }
  | fuel + 1, k, now, acc =>
    let wake := wakeTime cfg env k now
    match chosenChan cfg env k now with
    | Chan.ctxDone => { outcome := PollOutcome.ctxErr, checkTimes := acc, retTime := wake }
    | Chan.timeoutCh =>
      { outcome := PollOutcome.timedOut cfg.PollTimeout, checkTimes := acc, retTime := wake }
    | Chan.tick =>
      match checkStatusE env interactionID k with
      | Except.error e =>
        { outcome := PollOutcome.checkFailed e, checkTimes := acc ++ [wake], retTime := wake }
      | Except.ok r =>
        if r.Status = "completed" then
          { outcome := PollOutcome.completed r, checkTimes := acc ++ [wake], retTime := wake }
        else if r.Status = "failed" then
          { outcome := PollOutcome.failedStatus interactionID
            checkTimes := acc ++ [wake], retTime := wake }
        else pollGo cfg env interactionID fuel (k + 1) wake (acc ++ [wake])

/-- The polling phase, entered at time 0 with no checks performed.  The fuel
`PollTimeout / PollInterval + 2` covers every possible iteration count. -/
def pollUntilComplete (cfg : ViperConfig) (env : Env) (interactionID : String) : PollResult :=
  pollGo cfg env interactionID (cfg.PollTimeout / cfg.PollInterval + 2) 0 0 []

/-- The wrapped errors `Execute` can return: a failed submission
("failed to start research"), a failed polling phase ("failed to poll
research", carrying how the phase ended), and a failed persistence
("failed to save result"). -/
inductive ExecError
  | startFailed (msg : String)
  | pollFailed (how : PollOutcome)
  | saveFailed (msg : String)
deriving DecidableEq, Repr

/-- The `saveResult` step: the markdown path is
`filepath.Join(ResearchDir(), timestamp + ".md")`; on a successful
`WriteFile` the path is recorded in the result and the file now holds the
content, otherwise the write error is wrapped. -/
def saveResult (cfg : ViperConfig) (r : ResearchResult) (timestamp : String)
    (writeOk : Bool) : Except String (ResearchResult × (String × String)) :=
  let markdownPath := cfg.ResearchDir ++ "/" ++ timestamp ++ ".md"
  if writeOk then
    Except.ok ({ r with MarkdownPath := markdownPath }, (markdownPath, r.Content))
  else Except.error "failed to write markdown file"

instance {ε α : Type} [DecidableEq ε] [DecidableEq α] : DecidableEq (Except ε α) := fun x y =>
  match x, y with
  | Except.error a, Except.error b => decidable_of_iff (a = b) (by simp)
  | Except.ok a, Except.ok b => decidable_of_iff (a = b) (by simp)
  | Except.error _, Except.ok _ => isFalse (by simp)
  | Except.ok _, Except.error _ => isFalse (by simp)

/-- Everything observable about one `Execute` run: the returned value or error,
the recorded outcome of each `cancelResearch` call the deferred compensation
made, the number of `checkStatus` calls, and the files written to disk
(path and content). -/
structure ExecOutput where
  result : Except ExecError ResearchResult
  cancelOutcomes : List (String × Except String Unit)
  checks : Nat
  written : List (String × String)
deriving DecidableEq, Repr

/-- The `Execute` coordinator: create the job (no compensation when that
fails), poll until the loop returns, then persist.  The deferred function
calls `cancelResearch` exactly when `success` was never set, i.e. on every
path that does not return the saved result; the cancel outcome is only
logged. -/
def Execute (cfg : ViperConfig) (env : Env) (prompt timestamp : String) : ExecOutput :=
  match startResearchE env with
  | Except.error e =>
    { result := Except.error (ExecError.startFailed e)
      cancelOutcomes := [], checks := 0, written := [] }
  | Except.ok interactionID =>
    let pr := pollUntilComplete cfg env interactionID
    match pr.outcome with
    | PollOutcome.completed r =>
      match saveResult cfg r timestamp env.writeOk with
      | Except.error e =>
        { result := Except.error (ExecError.saveFailed e)
          cancelOutcomes := [(interactionID, cancelResearch env)]
          checks := pr.checkTimes.length, written := [] }
      | Except.ok (r2, file) =>
        { result := Except.ok r2
          cancelOutcomes := [], checks := pr.checkTimes.length, written := [file] }
    | how =>
      { result := Except.error (ExecError.pollFailed how)
        cancelOutcomes := [(interactionID, cancelResearch env)]
        checks := pr.checkTimes.length, written := [] }

/-- The times of the first k ticker deliveries. -/
def tickTimes (interval k : Nat) : List Nat :=
  (List.range k).map (fun i => (i + 1) * interval)

/-- The create response carries no job identifier, or an empty one. -/
def missingId (resp : ApiResp) : Prop :=
  resp.json200 = none ∨ ∃ i, resp.json200 = some i ∧ (i.id = none ∨ i.id = some "")

/-- A sample configuration with poll interval 1 and poll timeout 3. -/
def cfgA : ViperConfig := { OutputDir := "out", PollInterval := 1, PollTimeout := 3 }

/-- A sample configuration with poll interval 2 and poll timeout 10. -/
def cfgSlow : ViperConfig := { OutputDir := "out", PollInterval := 2, PollTimeout := 10 }

/-- A sample configuration whose poll timeout is smaller than its poll interval. -/
def cfgShortTimeout : ViperConfig := { OutputDir := "out", PollInterval := 5, PollTimeout := 3 }

/-- A create response carrying the identifier job-1. -/
def respCreated : ApiResp :=
  { statusCode := 200
    json200 := some { id := some "job-1", status := none, outputs := none }
    body := "" }

/-- A status response whose status is running. -/
def respRunning : ApiResp :=
  { statusCode := 200
    json200 := some { id := some "job-1", status := some "running", outputs := none }
    body := "" }

/-- A status response whose status is completed, with one text output. -/
def respCompleted : ApiResp :=
  { statusCode := 200
    json200 := some
      { id := some "job-1", status := some "completed"
        outputs := some [some (some "research markdown")] }
    body := "" }

/-- A status response whose status is completed but which carries no outputs. -/
def respCompletedNoText : ApiResp :=
  { statusCode := 200
    json200 := some { id := some "job-1", status := some "completed", outputs := none }
    body := "" }

/-- A bare 200 response, as answered to a cancel request. -/
def respPlain : ApiResp := { statusCode := 200, json200 := none, body := "" }

/-- An environment whose job never leaves the running state. -/
def envBusy : Env :=
  { createResp := Except.ok respCreated
    getResp := fun _ => Except.ok respRunning
    cancelResp := Except.ok respPlain
    cancelAt := none
    oracle := fun _ => 0
    writeOk := true }

/-- An environment whose job is completed at the first status check. -/
def envDone : Env := { envBusy with getResp := fun _ => Except.ok respCompleted }

/-- An environment whose job completes but whose response has no text output. -/
def envDoneNoText : Env := { envBusy with getResp := fun _ => Except.ok respCompletedNoText }

/-- An environment whose job completes but whose markdown write fails. -/
def envSaveFail : Env :=
  { envBusy with getResp := fun _ => Except.ok respCompleted, writeOk := false }

/-- An environment whose caller cancels at time 3, between the ticks at 2 and 4. -/
def envCancelMid : Env := { envBusy with cancelAt := some 3 }

/-- An environment whose create call fails with a transport error. -/
def envCreateErr : Env := { envBusy with createResp := Except.error "connection refused" }

/-- The builder loop computes a filter of the input, appended to the accumulator. -/
theorem sanitizeLoop_eq_filter (keep : Char → Bool) (l acc : List Char) :
    sanitizeLoop keep acc l = acc ++ l.filter keep := by
  induction l generalizing acc with
  | nil => simp [sanitizeLoop]
  | cons r rest ih =>
    by_cases h : keep r <;> simp [sanitizeLoop, h, ih]

/-- C8: the prompt sanitization is idempotent, and it removes exactly the runes
for which neither classification predicate holds, preserving every kept rune
in its original order (the output is a filter of the input rune sequence). -/
theorem sanitizePrompt_idempotent_and_filter (isPrint isSpace : Char → Bool) (s : String) :
    sanitizePrompt isPrint isSpace (sanitizePrompt isPrint isSpace s)
      = sanitizePrompt isPrint isSpace s
    ∧ (sanitizePrompt isPrint isSpace s).data
      = s.data.filter (fun r => isPrint r || isSpace r) := by
  constructor
  · show String.mk _ = String.mk _
    rw [sanitizePrompt, sanitizeLoop_eq_filter, sanitizeLoop_eq_filter]
    simp [sanitizePrompt, sanitizeLoop_eq_filter, List.filter_filter]
  · rw [sanitizePrompt, sanitizeLoop_eq_filter]
    simp

theorem foldr_min_le_init (l : List (Chan × Nat)) (i : Nat) :
    l.foldr (fun p m => min p.2 m) i ≤ i := by
  induction l with
  | nil => simp
  | cons a l ih => exact le_trans (min_le_right _ _) ih

theorem foldr_min_le_mem (l : List (Chan × Nat)) (i : Nat) (p : Chan × Nat) (hp : p ∈ l) :
    l.foldr (fun q m => min q.2 m) i ≤ p.2 := by
  induction l with
  | nil => cases hp
  | cons a l ih =>
    rcases List.mem_cons.mp hp with h | h
    · subst h; exact min_le_left _ _
    · exact le_trans (min_le_right _ _) (ih h)

theorem foldr_min_attained (l : List (Chan × Nat)) (i : Nat) :
    l.foldr (fun p m => min p.2 m) i = i ∨ ∃ p ∈ l, l.foldr (fun p m => min p.2 m) i = p.2 := by
  induction l with
  | nil => left; rfl
  | cons a l ih =>
    rcases min_choice a.2 (l.foldr (fun p m => min p.2 m) i) with h | h
    · right; exact ⟨a, List.mem_cons_self a l, h⟩
    · rcases ih with h' | ⟨p, hp, hp'⟩
      · left; simpa [h] using h'
      · right; exact ⟨p, List.mem_cons_of_mem a hp, by simpa [h] using hp'⟩

theorem timeout_mem_selChans (cfg : ViperConfig) (env : Env) (k now : Nat) :
    (Chan.timeoutCh, max cfg.PollTimeout now) ∈ selChans cfg env k now := by
  cases h : env.cancelAt <;> simp [selChans, h]

theorem tick_mem_selChans (cfg : ViperConfig) (env : Env) (k now : Nat) :
    (Chan.tick, max ((k + 1) * cfg.PollInterval) now) ∈ selChans cfg env k now := by
  cases h : env.cancelAt <;> simp [selChans, h]

theorem wakeTime_le_timeout (cfg : ViperConfig) (env : Env) (k now : Nat) :
    wakeTime cfg env k now ≤ max cfg.PollTimeout now :=
  foldr_min_le_init _ _

theorem wakeTime_le_tick (cfg : ViperConfig) (env : Env) (k now : Nat) :
    wakeTime cfg env k now ≤ max ((k + 1) * cfg.PollInterval) now :=
  foldr_min_le_mem _ _ _ (tick_mem_selChans cfg env k now)

theorem wakeTime_attained (cfg : ViperConfig) (env : Env) (k now : Nat) :
    ∃ p ∈ selChans cfg env k now, p.2 = wakeTime cfg env k now := by
  rcases foldr_min_attained (selChans cfg env k now) (max cfg.PollTimeout now) with h | ⟨p, hp, hp'⟩
  · exact ⟨(Chan.timeoutCh, max cfg.PollTimeout now), timeout_mem_selChans cfg env k now, h.symm⟩
  · exact ⟨p, hp, hp'.symm⟩

theorem readyChans_ne_nil (cfg : ViperConfig) (env : Env) (k now : Nat) :
    readyChans cfg env k now ≠ [] := by
  rcases wakeTime_attained cfg env k now with ⟨p, hp, hp'⟩
  intro hcon
  have : ((selChans cfg env k now).filter (fun p => p.2 = wakeTime cfg env k now)) = [] :=
    List.map_eq_nil.mp hcon
  have := List.filter_eq_nil.mp this p hp
  simp [hp'] at this

theorem chosenChan_mem (cfg : ViperConfig) (env : Env) (k now : Nat) :
    chosenChan cfg env k now ∈ readyChans cfg env k now := by
  have hne := readyChans_ne_nil cfg env k now
  have hpos : 0 < (readyChans cfg env k now).length := List.length_pos.mpr hne
  have hlt : env.oracle k % (readyChans cfg env k now).length
      < (readyChans cfg env k now).length := Nat.mod_lt _ hpos
  rw [chosenChan, List.getD_eq_get? , List.get?_eq_get hlt]
  exact List.get_mem _ _ _

theorem chosen_eff_eq_wake (cfg : ViperConfig) (env : Env) (k now : Nat) (c : Chan)
    (h : chosenChan cfg env k now = c) :
    ∃ p ∈ selChans cfg env k now, p.1 = c ∧ p.2 = wakeTime cfg env k now := by
  have hmem := chosenChan_mem cfg env k now
  rw [h] at hmem
  rw [readyChans] at hmem
  rcases List.mem_map.mp hmem with ⟨p, hp, hp1⟩
  have hp2 := List.of_mem_filter hp
  exact ⟨p, List.mem_of_mem_filter hp, hp1, by simpa using hp2⟩

theorem chosen_tick_wake (cfg : ViperConfig) (env : Env) (k now : Nat)
    (h : chosenChan cfg env k now = Chan.tick) :
    wakeTime cfg env k now = max ((k + 1) * cfg.PollInterval) now := by
  rcases chosen_eff_eq_wake cfg env k now Chan.tick h with ⟨p, hp, hp1, hp2⟩
  rw [← hp2]
  cases hc : env.cancelAt <;> rw [selChans, hc] at hp <;> simp at hp
  · rcases hp with hp | hp <;> subst hp
    · cases hp1
    · rfl
  · rcases hp with hp | hp | hp <;> subst hp
    · cases hp1
    · cases hp1
    · rfl

theorem select_tick_only (cfg : ViperConfig) (env : Env) (k now : Nat)
    (hnow : now ≤ (k + 1) * cfg.PollInterval)
    (hT : (k + 1) * cfg.PollInterval < cfg.PollTimeout)
    (hctx : ∀ tc, env.cancelAt = some tc → (k + 1) * cfg.PollInterval < tc) :
    wakeTime cfg env k now = (k + 1) * cfg.PollInterval
    ∧ readyChans cfg env k now = [Chan.tick] := by
  cases hc : env.cancelAt with
  | none =>
    have hw : wakeTime cfg env k now = (k + 1) * cfg.PollInterval := by
      simp only [wakeTime, selChans, hc, List.nil_append, List.foldr_cons, List.foldr_nil]
      omega
    refine ⟨hw, ?_⟩
    have h1 : ¬ (max cfg.PollTimeout now = (k + 1) * cfg.PollInterval) := by omega
    have h2 : max ((k + 1) * cfg.PollInterval) now = (k + 1) * cfg.PollInterval := by omega
    simp only [readyChans, selChans, hc, List.nil_append, hw]
    simp [List.filter, h1, h2]
  | some tc =>
    have htc := hctx tc hc
    have hw : wakeTime cfg env k now = (k + 1) * cfg.PollInterval := by
      simp only [wakeTime, selChans, hc, List.cons_append, List.nil_append,
        List.foldr_cons, List.foldr_nil]
      omega
    refine ⟨hw, ?_⟩
    have h0 : ¬ (max tc now = (k + 1) * cfg.PollInterval) := by omega
    have h1 : ¬ (max cfg.PollTimeout now = (k + 1) * cfg.PollInterval) := by omega
    have h2 : max ((k + 1) * cfg.PollInterval) now = (k + 1) * cfg.PollInterval := by omega
    simp only [readyChans, selChans, hc, List.cons_append, List.nil_append, hw]
    simp [List.filter, h0, h1, h2]

theorem pollGo_tick_step (cfg : ViperConfig) (env : Env) (interactionID : String)
    (fuel k : Nat) (acc : List Nat) (r : ResearchResult)
    (hT : (k + 1) * cfg.PollInterval < cfg.PollTimeout)
    (hctx : ∀ tc, env.cancelAt = some tc → (k + 1) * cfg.PollInterval < tc)
    (hst : checkStatusE env interactionID k = Except.ok r)
    (h1 : r.Status ≠ "completed") (h2 : r.Status ≠ "failed") :
    pollGo cfg env interactionID (fuel + 1) k (k * cfg.PollInterval) acc
      = pollGo cfg env interactionID fuel (k + 1) ((k + 1) * cfg.PollInterval)
          (acc ++ [(k + 1) * cfg.PollInterval]) := by
  have hnow : k * cfg.PollInterval ≤ (k + 1) * cfg.PollInterval :=
    Nat.mul_le_mul_right _ (Nat.le_succ k)
  obtain ⟨hw, hr⟩ := select_tick_only cfg env k (k * cfg.PollInterval) hnow hT hctx
  have hch : chosenChan cfg env k (k * cfg.PollInterval) = Chan.tick := by
    rw [chosenChan, hr]
    simp [Nat.mod_one]
  simp only [pollGo, hch, hst, hw, if_neg h1, if_neg h2]

theorem pollGo_prefix (cfg : ViperConfig) (env : Env) (interactionID : String) :
    ∀ k : Nat, k * cfg.PollInterval < cfg.PollTimeout →
    (∀ tc, env.cancelAt = some tc → k * cfg.PollInterval < tc) →
    (∀ i, i < k → ∃ r, checkStatusE env interactionID i = Except.ok r ∧
      r.Status ≠ "completed" ∧ r.Status ≠ "failed") →
    ∀ fuel, pollGo cfg env interactionID (fuel + k) 0 0 []
      = pollGo cfg env interactionID fuel k (k * cfg.PollInterval)
          (tickTimes cfg.PollInterval k) := by
  intro k
  induction k with
  | zero => intro _ _ _ fuel; simp [tickTimes]
  | succ k ih =>
    intro hT hctx hst fuel
    have hmono : k * cfg.PollInterval ≤ (k + 1) * cfg.PollInterval :=
      Nat.mul_le_mul_right _ (Nat.le_succ k)
    have hT' : k * cfg.PollInterval < cfg.PollTimeout := lt_of_le_of_lt hmono hT
    have hctx' : ∀ tc, env.cancelAt = some tc → k * cfg.PollInterval < tc :=
      fun tc h => lt_of_le_of_lt hmono (hctx tc h)
    have hst' : ∀ i, i < k → ∃ r, checkStatusE env interactionID i = Except.ok r ∧
        r.Status ≠ "completed" ∧ r.Status ≠ "failed" :=
      fun i hi => hst i (Nat.lt_succ_of_lt hi)
    rcases hst k (Nat.lt_succ_self k) with ⟨r, hok, hc1, hc2⟩
    have harith : fuel + (k + 1) = (fuel + 1) + k := by omega
    rw [harith, ih hT' hctx' hst' (fuel + 1),
      pollGo_tick_step cfg env interactionID fuel k _ r hT hctx hok hc1 hc2]
    congr 1
    simp [tickTimes, List.range_succ]

theorem pollGo_no_fuelOut (cfg : ViperConfig) (env : Env) (interactionID : String)
    (hI : 1 ≤ cfg.PollInterval) :
    ∀ fuel k now acc, now ≤ k * cfg.PollInterval →
      cfg.PollTimeout / cfg.PollInterval + 1 ≤ fuel + k → 1 ≤ fuel →
      (pollGo cfg env interactionID fuel k now acc).outcome ≠ PollOutcome.fuelOut := by
  intro fuel
  induction fuel with
  | zero => intro k now acc _ _ h; omega
  | succ fuel ih =>
    intro k now acc hnow hfk _
    have hsucc : (k + 1) * cfg.PollInterval = k * cfg.PollInterval + cfg.PollInterval :=
      Nat.succ_mul k cfg.PollInterval
    cases hch : chosenChan cfg env k now with
    | ctxDone => simp [pollGo, hch]
    | timeoutCh => simp [pollGo, hch]
    | tick =>
      have hwk := chosen_tick_wake cfg env k now hch
      cases hst : checkStatusE env interactionID k with
      | error e => simp [pollGo, hch, hst]
      | ok r =>
        by_cases h1 : r.Status = "completed"
        · simp [pollGo, hch, hst, h1]
        · by_cases h2 : r.Status = "failed"
          · simp [pollGo, hch, hst, h1, h2]
          · have hle := wakeTime_le_timeout cfg env k now
            rw [hwk] at hle
            have hkT : (k + 1) * cfg.PollInterval ≤ cfg.PollTimeout := by omega
            have hk1 : k + 1 ≤ cfg.PollTimeout / cfg.PollInterval :=
              (Nat.le_div_iff_mul_le hI).mpr hkT
            have hnow' : wakeTime cfg env k now = (k + 1) * cfg.PollInterval := by omega
            simp only [pollGo, hch, hst, if_neg h1, if_neg h2]
            exact ih (k + 1) _ _ (le_of_eq hnow') (by omega) (by omega)

theorem pollGo_inprogress_outcomes (cfg : ViperConfig) (env : Env) (interactionID : String)
    (hall : ∀ i, ∃ r, checkStatusE env interactionID i = Except.ok r ∧
      r.Status ≠ "completed" ∧ r.Status ≠ "failed") :
    ∀ fuel k now acc,
      (pollGo cfg env interactionID fuel k now acc).outcome
          = PollOutcome.timedOut cfg.PollTimeout
      ∨ (pollGo cfg env interactionID fuel k now acc).outcome = PollOutcome.ctxErr
      ∨ (pollGo cfg env interactionID fuel k now acc).outcome = PollOutcome.fuelOut := by
  intro fuel
  induction fuel with
  | zero => intro k now acc; right; right; rfl
  | succ fuel ih =>
    intro k now acc
    rcases hall k with ⟨r, hok, h1, h2⟩
    cases hch : chosenChan cfg env k now with
    | ctxDone => right; left; simp [pollGo, hch]
    | timeoutCh => left; simp [pollGo, hch]
    | tick =>
      simp only [pollGo, hch, hok, if_neg h1, if_neg h2]
      exact ih (k + 1) _ _

theorem pollGo_checkTimes_ge (cfg : ViperConfig) (env : Env) (interactionID : String) :
    ∀ fuel k now acc, now ≤ k * cfg.PollInterval →
      (∀ t ∈ acc, cfg.PollInterval ≤ t) →
      ∀ t ∈ (pollGo cfg env interactionID fuel k now acc).checkTimes,
        cfg.PollInterval ≤ t := by
  intro fuel
  induction fuel with
  | zero => intro k now acc _ hacc; simpa [pollGo] using hacc
  | succ fuel ih =>
    intro k now acc hnow hacc
    have hsucc : (k + 1) * cfg.PollInterval = k * cfg.PollInterval + cfg.PollInterval :=
      Nat.succ_mul k cfg.PollInterval
    cases hch : chosenChan cfg env k now with
    | ctxDone => simpa [pollGo, hch] using hacc
    | timeoutCh => simpa [pollGo, hch] using hacc
    | tick =>
      have hwk := chosen_tick_wake cfg env k now hch
      have hge : cfg.PollInterval ≤ wakeTime cfg env k now := by omega
      have hacc' : ∀ t ∈ acc ++ [wakeTime cfg env k now], cfg.PollInterval ≤ t := by
        intro t ht
        rcases List.mem_append.mp ht with ht | ht
        · exact hacc t ht
        · simp at ht; omega
      cases hst : checkStatusE env interactionID k with
      | error e => simpa [pollGo, hch, hst] using hacc'
      | ok r =>
        by_cases h1 : r.Status = "completed"
        · simpa [pollGo, hch, hst, h1] using hacc'
        · by_cases h2 : r.Status = "failed"
          · simpa [pollGo, hch, hst, h1, h2] using hacc'
          · have hnow' : wakeTime cfg env k now = (k + 1) * cfg.PollInterval := by omega
            simp only [pollGo, hch, hst, if_neg h1, if_neg h2]
            rw [hnow']
            exact ih (k + 1) _ _ (le_refl _) (by rw [hnow'] at hacc'; exact hacc')

/-- C3: when the initial create call fails, Execute returns the wrapped
submission error immediately: no status check is performed, no file is written
and no cancel call is ever issued. -/
theorem Execute_createFail_no_cancel (cfg : ViperConfig) (env : Env)
    (prompt timestamp e : String) (h : startResearchE env = Except.error e) :
    Execute cfg env prompt timestamp =
      { result := Except.error (ExecError.startFailed e)
        cancelOutcomes := [], checks := 0, written := [] } := by
  simp [Execute, h]

/-- Witness for C3: a concrete environment whose create call fails with a
transport error; Execute returns the wrapped error and issues no cancel. -/
theorem Execute_createFail_no_cancel_witness :
    startResearchE envCreateErr = Except.error "failed to create interaction: connection refused"
    ∧ Execute cfgA envCreateErr "p" "ts" =
      { result := Except.error
          (ExecError.startFailed "failed to create interaction: connection refused")
        cancelOutcomes := [], checks := 0, written := [] } :=
  ⟨rfl, Execute_createFail_no_cancel cfgA envCreateErr "p" "ts" _ rfl⟩

/-- C4: under the invariant that the parsed 200-body is present only for a 200
response, startResearch fails exactly when the HTTP status is not 2xx or the
response carries a missing or empty job identifier; otherwise it returns the
non-empty identifier taken from the response. -/
theorem startResearch_error_characterization (resp : ApiResp) (hwf : resp.wf) :
    ((∃ e, startResearch resp = Except.error e)
      ↔ (¬ (200 ≤ resp.statusCode ∧ resp.statusCode ≤ 299) ∨ missingId resp))
    ∧ ∀ jobID, startResearch resp = Except.ok jobID →
        jobID ≠ "" ∧ ∃ i, resp.json200 = some i ∧ i.id = some jobID := by
  by_cases hs : resp.statusCode = 200
  · cases hj : resp.json200 with
    | none =>
      refine ⟨⟨fun _ => Or.inr (Or.inl hj), fun _ => ⟨"empty response body", ?_⟩⟩, ?_⟩
      · rw [startResearch]; simp [hs, hj]
      · intro jobID h
        rw [startResearch] at h
        simp [hs, hj] at h
    | some i =>
      cases hid : i.id with
      | none =>
        refine ⟨⟨fun _ => Or.inr (Or.inr ⟨i, hj, Or.inl hid⟩),
          fun _ => ⟨"empty interaction ID in response", ?_⟩⟩, ?_⟩
        · rw [startResearch]; simp [hs, hj, hid]
        · intro jobID h
          rw [startResearch] at h
          simp [hs, hj, hid] at h
      | some s =>
        by_cases hse : s = ""
        · refine ⟨⟨fun _ => Or.inr (Or.inr ⟨i, hj, Or.inr (by rw [hid, hse])⟩),
            fun _ => ⟨"empty interaction ID in response", ?_⟩⟩, ?_⟩
          · rw [startResearch]; simp [hs, hj, hid, hse]
          · intro jobID h
            rw [startResearch] at h
            simp [hs, hj, hid, hse] at h
        · have hok : startResearch resp = Except.ok s := by
            rw [startResearch]; simp [hs, hj, hid, hse]
          constructor
          · constructor
            · intro ⟨e, he⟩
              rw [hok] at he
              cases he
            · intro hor
              rcases hor with h2 | hm
              · exact absurd ⟨by omega, by omega⟩ h2
              · rcases hm with hm | ⟨i', hi', hm⟩
                · rw [hj] at hm; cases hm
                · rw [hj] at hi'
                  cases hi'
                  rcases hm with hm | hm <;> rw [hid] at hm
                  · cases hm
                  · exact absurd (by injection hm) hse
          · intro jobID h
            rw [hok] at h
            injection h with h'
            subst h'
            exact ⟨hse, i, rfl, hid⟩
  · have herr : startResearch resp
        = Except.error ("API error (status " ++ toString resp.statusCode ++ "): " ++ resp.body) := by
      rw [startResearch]; simp [hs]
    have hjn : resp.json200 = none := by
      cases hj : resp.json200 with
      | none => rfl
      | some i => exact absurd (hwf (by rw [hj]; rfl)) hs
    refine ⟨⟨fun _ => Or.inr (Or.inl hjn), fun _ => ⟨_, herr⟩⟩, ?_⟩
    intro jobID h
    rw [herr] at h
    cases h

/-- Witness for C4: a concrete 200 response carrying the identifier job-1
satisfies the characterization. -/
theorem startResearch_error_characterization_witness :
    respCreated.wf
    ∧ (((∃ e, startResearch respCreated = Except.error e)
        ↔ (¬ (200 ≤ respCreated.statusCode ∧ respCreated.statusCode ≤ 299)
            ∨ missingId respCreated))
      ∧ ∀ jobID, startResearch respCreated = Except.ok jobID →
          jobID ≠ "" ∧ ∃ i, respCreated.json200 = some i ∧ i.id = some jobID) :=
  ⟨fun _ => rfl, startResearch_error_characterization respCreated (fun _ => rfl)⟩

theorem selChans_congr (cfg : ViperConfig) (env env' : Env) (k now : Nat)
    (hc : env.cancelAt = env'.cancelAt) :
    selChans cfg env k now = selChans cfg env' k now := by
  rw [selChans, selChans, hc]

theorem wakeTime_congr (cfg : ViperConfig) (env env' : Env) (k now : Nat)
    (hc : env.cancelAt = env'.cancelAt) :
    wakeTime cfg env k now = wakeTime cfg env' k now := by
  rw [wakeTime, wakeTime, selChans_congr cfg env env' k now hc]

theorem readyChans_congr (cfg : ViperConfig) (env env' : Env) (k now : Nat)
    (hc : env.cancelAt = env'.cancelAt) :
    readyChans cfg env k now = readyChans cfg env' k now := by
  rw [readyChans, readyChans, selChans_congr cfg env env' k now hc,
    wakeTime_congr cfg env env' k now hc]

theorem chosenChan_congr (cfg : ViperConfig) (env env' : Env) (k now : Nat)
    (hc : env.cancelAt = env'.cancelAt) (ho : env.oracle = env'.oracle) :
    chosenChan cfg env k now = chosenChan cfg env' k now := by
  rw [chosenChan, chosenChan, readyChans_congr cfg env env' k now hc, ho]

theorem checkStatusE_congr (env env' : Env) (interactionID : String) (k : Nat)
    (hg : env.getResp = env'.getResp) :
    checkStatusE env interactionID k = checkStatusE env' interactionID k := by
  rw [checkStatusE, checkStatusE, hg]

theorem pollGo_env_congr (cfg : ViperConfig) (env env' : Env) (interactionID : String)
    (hg : env.getResp = env'.getResp) (hc : env.cancelAt = env'.cancelAt)
    (ho : env.oracle = env'.oracle) :
    ∀ fuel k now acc,
      pollGo cfg env interactionID fuel k now acc
        = pollGo cfg env' interactionID fuel k now acc := by
  intro fuel
  induction fuel with
  | zero => intro k now acc; rfl
  | succ fuel ih =>
    intro k now acc
    simp only [pollGo]
    rw [chosenChan_congr cfg env env' k now hc ho, wakeTime_congr cfg env env' k now hc,
      checkStatusE_congr env env' interactionID k hg]
    cases chosenChan cfg env' k now with
    | ctxDone => rfl
    | timeoutCh => rfl
    | tick =>
      cases checkStatusE env' interactionID k with
      | error e => rfl
      | ok r =>
        by_cases h1 : r.Status = "completed"
        · simp [h1]
        · by_cases h2 : r.Status = "failed"
          · simp [h1, h2]
          · simp only [if_neg h1, if_neg h2]
            exact ih (k + 1) _ _

theorem pollUntilComplete_ignores_cancelResp (cfg : ViperConfig) (env : Env)
    (interactionID : String) (c' : Except String ApiResp) :
    pollUntilComplete cfg { env with cancelResp := c' } interactionID
      = pollUntilComplete cfg env interactionID := by
  rw [pollUntilComplete, pollUntilComplete]
  exact pollGo_env_congr cfg { env with cancelResp := c' } env interactionID
    rfl rfl rfl _ _ _ _

theorem Execute_ignores_cancelResp (cfg : ViperConfig) (env : Env)
    (prompt timestamp : String) (c' : Except String ApiResp) :
    (Execute cfg { env with cancelResp := c' } prompt timestamp).result
      = (Execute cfg env prompt timestamp).result
    ∧ (Execute cfg { env with cancelResp := c' } prompt timestamp).checks
      = (Execute cfg env prompt timestamp).checks
    ∧ (Execute cfg { env with cancelResp := c' } prompt timestamp).written
      = (Execute cfg env prompt timestamp).written := by
  have hstart : startResearchE { env with cancelResp := c' } = startResearchE env := rfl
  cases hse : startResearchE env with
  | error e => simp [Execute, hstart, hse]
  | ok interactionID =>
    have hpoll := pollUntilComplete_ignores_cancelResp cfg env interactionID c'
    cases ho : (pollUntilComplete cfg env interactionID).outcome with
    | completed r =>
      cases hsv : saveResult cfg r timestamp env.writeOk with
      | error e2 => simp [Execute, hstart, hse, hpoll, ho, hsv]
      | ok p =>
        obtain ⟨r2, file⟩ := p
        simp [Execute, hstart, hse, hpoll, ho, hsv]
    | failedStatus i => simp [Execute, hstart, hse, hpoll, ho]
    | timedOut t => simp [Execute, hstart, hse, hpoll, ho]
    | ctxErr => simp [Execute, hstart, hse, hpoll, ho]
    | checkFailed e2 => simp [Execute, hstart, hse, hpoll, ho]
    | fuelOut => simp [Execute, hstart, hse, hpoll, ho]

/-- C1: whenever the created job's polling phase ends in any way other than
completion, Execute makes exactly one best-effort cancel call, the terminal
error it returns wraps that polling outcome, and the returned error is
unchanged under any outcome of the cancel call. -/
theorem Execute_compensates_nonCompleted (cfg : ViperConfig) (env : Env)
    (prompt timestamp interactionID : String)
    (hstart : startResearchE env = Except.ok interactionID)
    (hnc : ∀ r, (pollUntilComplete cfg env interactionID).outcome
      ≠ PollOutcome.completed r) :
    (Execute cfg env prompt timestamp).cancelOutcomes = [(interactionID, cancelResearch env)]
    ∧ (Execute cfg env prompt timestamp).result
        = Except.error
            (ExecError.pollFailed (pollUntilComplete cfg env interactionID).outcome)
    ∧ ∀ c', (Execute cfg { env with cancelResp := c' } prompt timestamp).result
        = (Execute cfg env prompt timestamp).result := by
  have hc1 : (Execute cfg env prompt timestamp).cancelOutcomes = [(interactionID, cancelResearch env)] := by
    simp only [Execute, hstart]
  have hc2 : (Execute cfg env prompt timestamp).result
      = Except.error
          (ExecError.pollFailed (pollUntilComplete cfg env interactionID).outcome) := by
    simp only [Execute, hstart]
  exact ⟨hc1, hc2, fun c' => (Execute_ignores_cancelResp cfg env prompt timestamp c').1⟩

/-- Witness for C1: with a job that never leaves the running state and a
1-second interval with 3-second timeout, polling times out, one cancel call is
recorded and the error ignores the cancel outcome. -/
theorem Execute_compensates_nonCompleted_witness :
    startResearchE envBusy = Except.ok "job-1"
    ∧ ((Execute cfgA envBusy "p" "ts").cancelOutcomes = [("job-1", cancelResearch envBusy)]
      ∧ (Execute cfgA envBusy "p" "ts").result
          = Except.error
              (ExecError.pollFailed (pollUntilComplete cfgA envBusy "job-1").outcome)
      ∧ ∀ c', (Execute cfgA { envBusy with cancelResp := c' } "p" "ts").result
          = (Execute cfgA envBusy "p" "ts").result) := by
  refine ⟨rfl, Execute_compensates_nonCompleted cfgA envBusy "p" "ts" "job-1" rfl ?_⟩
  intro r h
  rw [show (pollUntilComplete cfgA envBusy "job-1").outcome
      = PollOutcome.timedOut 3 from rfl] at h
  exact PollOutcome.noConfusion h

/-- C9: when the job completes remotely but persisting the result fails,
Execute returns the persistence error and still makes the one cancel call:
compensation is keyed to Execute not returning success. -/
theorem Execute_saveFail_cancels (cfg : ViperConfig) (env : Env)
    (prompt timestamp interactionID : String) (r : ResearchResult)
    (hstart : startResearchE env = Except.ok interactionID)
    (hout : (pollUntilComplete cfg env interactionID).outcome = PollOutcome.completed r)
    (hw : env.writeOk = false) :
    (Execute cfg env prompt timestamp).result
      = Except.error (ExecError.saveFailed "failed to write markdown file")
    ∧ (Execute cfg env prompt timestamp).cancelOutcomes = [(interactionID, cancelResearch env)]
    ∧ (Execute cfg env prompt timestamp).written = [] := by
  simp only [Execute, hstart, hout, hw, saveResult]
  exact ⟨rfl, rfl, rfl⟩

/-- Witness for C9: a job completed at the first check whose markdown write
fails; Execute reports the save error and one cancel call. -/
theorem Execute_saveFail_cancels_witness :
    startResearchE envSaveFail = Except.ok "job-1"
    ∧ (pollUntilComplete cfgA envSaveFail "job-1").outcome
        = PollOutcome.completed
            { InteractionID := "job-1", Status := "completed"
              Content := "research markdown", MarkdownPath := "" }
    ∧ envSaveFail.writeOk = false
    ∧ ((Execute cfgA envSaveFail "p" "ts").result
        = Except.error (ExecError.saveFailed "failed to write markdown file")
      ∧ (Execute cfgA envSaveFail "p" "ts").cancelOutcomes = [("job-1", cancelResearch envSaveFail)]
      ∧ (Execute cfgA envSaveFail "p" "ts").written = []) :=
  ⟨rfl, rfl, rfl, Execute_saveFail_cancels cfgA envSaveFail "p" "ts" "job-1" _ rfl rfl rfl⟩

theorem pollGo_timeout_step (cfg : ViperConfig) (env : Env) (interactionID : String)
    (fuel k now : Nat) (acc : List Nat)
    (hch : chosenChan cfg env k now = Chan.timeoutCh) :
    pollGo cfg env interactionID (fuel + 1) k now acc
      = { outcome := PollOutcome.timedOut cfg.PollTimeout, checkTimes := acc
          retTime := wakeTime cfg env k now } := by
  simp only [pollGo, hch]

theorem pollGo_ctx_step (cfg : ViperConfig) (env : Env) (interactionID : String)
    (fuel k now : Nat) (acc : List Nat)
    (hch : chosenChan cfg env k now = Chan.ctxDone) :
    pollGo cfg env interactionID (fuel + 1) k now acc
      = { outcome := PollOutcome.ctxErr, checkTimes := acc
          retTime := wakeTime cfg env k now } := by
  simp only [pollGo, hch]

theorem pollGo_inprogress_step (cfg : ViperConfig) (env : Env) (interactionID : String)
    (fuel k now : Nat) (acc : List Nat) (r : ResearchResult)
    (hch : chosenChan cfg env k now = Chan.tick)
    (hok : checkStatusE env interactionID k = Except.ok r)
    (h1 : r.Status ≠ "completed") (h2 : r.Status ≠ "failed") :
    pollGo cfg env interactionID (fuel + 1) k now acc
      = pollGo cfg env interactionID fuel (k + 1) (wakeTime cfg env k now)
          (acc ++ [wakeTime cfg env k now]) := by
  simp only [pollGo, hch, hok, if_neg h1, if_neg h2]

/-- C6: a successful status check whose status is neither completed nor failed
keeps the coordinator in the polling loop (the iteration recurses with one more
check recorded), and a run all of whose checks succeed with such statuses can
only end by timeout or caller cancellation, never in an error caused by the
status value itself. -/
theorem inprogress_status_keeps_polling (cfg : ViperConfig) (env : Env)
    (interactionID : String) (hI : 1 ≤ cfg.PollInterval)
    (hall : ∀ i, ∃ r, checkStatusE env interactionID i = Except.ok r ∧
      r.Status ≠ "completed" ∧ r.Status ≠ "failed") :
    ((pollUntilComplete cfg env interactionID).outcome = PollOutcome.timedOut cfg.PollTimeout
      ∨ (pollUntilComplete cfg env interactionID).outcome = PollOutcome.ctxErr)
    ∧ ∀ fuel k now acc r, chosenChan cfg env k now = Chan.tick →
        checkStatusE env interactionID k = Except.ok r →
        r.Status ≠ "completed" → r.Status ≠ "failed" →
        pollGo cfg env interactionID (fuel + 1) k now acc
          = pollGo cfg env interactionID fuel (k + 1) (wakeTime cfg env k now)
              (acc ++ [wakeTime cfg env k now]) := by
  constructor
  · have h3 := pollGo_inprogress_outcomes cfg env interactionID hall
      (cfg.PollTimeout / cfg.PollInterval + 2) 0 0 []
    have h4 := pollGo_no_fuelOut cfg env interactionID hI
      (cfg.PollTimeout / cfg.PollInterval + 2) 0 0 [] (Nat.zero_le _)
      (Nat.add_le_add_left (by norm_num) _)
      (Nat.le_add_left 1 _)
    rw [pollUntilComplete]
    rcases h3 with h | h | h
    · exact Or.inl h
    · exact Or.inr h
    · exact absurd h h4
  · intro fuel k now acc r hch hok h1 h2
    exact pollGo_inprogress_step cfg env interactionID fuel k now acc r hch hok h1 h2

/-- Witness for C6: the always-running environment with interval 1 and
timeout 3 stays in the loop and ends with a timeout, not a status-caused
error. -/
theorem inprogress_status_keeps_polling_witness :
    1 ≤ cfgA.PollInterval
    ∧ (((pollUntilComplete cfgA envBusy "job-1").outcome
          = PollOutcome.timedOut cfgA.PollTimeout
        ∨ (pollUntilComplete cfgA envBusy "job-1").outcome = PollOutcome.ctxErr)
      ∧ ∀ fuel k now acc r, chosenChan cfgA envBusy k now = Chan.tick →
          checkStatusE envBusy "job-1" k = Except.ok r →
          r.Status ≠ "completed" → r.Status ≠ "failed" →
          pollGo cfgA envBusy "job-1" (fuel + 1) k now acc
            = pollGo cfgA envBusy "job-1" fuel (k + 1) (wakeTime cfgA envBusy k now)
                (acc ++ [wakeTime cfgA envBusy k now])) :=
  ⟨by decide,
    inprogress_status_keeps_polling cfgA envBusy "job-1" (by decide)
      (fun i => ⟨{ InteractionID := "job-1", Status := "running"
                   Content := "", MarkdownPath := "" },
        rfl, by decide, by decide⟩)⟩

/-- C5: with poll interval 1 and poll timeout 3 (seconds), no caller
cancellation, and checks that always succeed with a non-terminal status,
Execute returns the poll-timeout error naming the 3-second bound, performs
between 2 and 4 in-progress status checks, and makes one cancel call. -/
theorem Execute_interval1_timeout3_pollTimeout (cfg : ViperConfig) (env : Env)
    (interactionID prompt timestamp : String)
    (hI : cfg.PollInterval = 1) (hT : cfg.PollTimeout = 3)
    (hc : env.cancelAt = none)
    (hstart : startResearchE env = Except.ok interactionID)
    (hall : ∀ i, ∃ r, checkStatusE env interactionID i = Except.ok r ∧
      r.Status ≠ "completed" ∧ r.Status ≠ "failed") :
    (Execute cfg env prompt timestamp).result
      = Except.error (ExecError.pollFailed (PollOutcome.timedOut 3))
    ∧ (Execute cfg env prompt timestamp).cancelOutcomes = [(interactionID, cancelResearch env)]
    ∧ 2 ≤ (Execute cfg env prompt timestamp).checks
    ∧ (Execute cfg env prompt timestamp).checks ≤ 4 := by
  have hpoll : (pollUntilComplete cfg env interactionID).outcome = PollOutcome.timedOut 3
      ∧ 2 ≤ (pollUntilComplete cfg env interactionID).checkTimes.length
      ∧ (pollUntilComplete cfg env interactionID).checkTimes.length ≤ 4 := by
    have hpre := pollGo_prefix cfg env interactionID 2 (by rw [hI, hT]; norm_num)
      (fun tc htc => by rw [hc] at htc; cases htc)
      (fun i hi => hall i) 3
    have h5 : pollUntilComplete cfg env interactionID
        = pollGo cfg env interactionID (3 + 2) 0 0 [] := by
      rw [pollUntilComplete, hI, hT]
    rw [h5, hpre]
    have hnow : 2 * cfg.PollInterval = 2 := by rw [hI]
    have htk : tickTimes cfg.PollInterval 2 = [1, 2] := by
      rw [tickTimes, hI]; decide
    rw [hnow, htk]
    have hsel2 : selChans cfg env 2 2 = [(Chan.timeoutCh, 3), (Chan.tick, 3)] := by
      rw [selChans, hc, hT, hI]
      decide
    have hwake2 : wakeTime cfg env 2 2 = 3 := by
      rw [wakeTime, hsel2, hT]
      decide
    have hready2 : readyChans cfg env 2 2 = [Chan.timeoutCh, Chan.tick] := by
      rw [readyChans, hsel2, hwake2]
      decide
    have horacle : env.oracle 2 % 2 = 0 ∨ env.oracle 2 % 2 = 1 := by omega
    rcases horacle with ho2 | ho2
    · have hch : chosenChan cfg env 2 2 = Chan.timeoutCh := by
        rw [chosenChan, hready2]
        simp [ho2]
      have e1 := pollGo_timeout_step cfg env interactionID 2 2 2 [1, 2] hch
      rw [e1, hT, hwake2]
      exact ⟨rfl, by norm_num, by norm_num⟩
    · have hch : chosenChan cfg env 2 2 = Chan.tick := by
        rw [chosenChan, hready2]
        simp [ho2]
      rcases hall 2 with ⟨r2, hok2, h2c, h2f⟩
      have e1 := pollGo_inprogress_step cfg env interactionID 2 2 2 [1, 2] r2 hch hok2 h2c h2f
      rw [e1, hwake2]
      have hsel3 : selChans cfg env 3 3 = [(Chan.timeoutCh, 3), (Chan.tick, 4)] := by
        rw [selChans, hc, hT, hI]
        decide
      have hwake3 : wakeTime cfg env 3 3 = 3 := by
        rw [wakeTime, hsel3, hT]
        decide
      have hready3 : readyChans cfg env 3 3 = [Chan.timeoutCh] := by
        rw [readyChans, hsel3, hwake3]
        decide
      have hch3 : chosenChan cfg env 3 3 = Chan.timeoutCh := by
        rw [chosenChan, hready3]
        simp
      have e2 := pollGo_timeout_step cfg env interactionID 1 3 3 ([1, 2] ++ [3]) hch3
      rw [e2, hT, hwake3]
      exact ⟨rfl, by norm_num, by norm_num⟩
  refine ⟨?_, ?_, ?_, ?_⟩
  · simp only [Execute, hstart, hpoll.1]
  · simp only [Execute, hstart, hpoll.1]
  · have hch : (Execute cfg env prompt timestamp).checks
        = (pollUntilComplete cfg env interactionID).checkTimes.length := by
      simp only [Execute, hstart, hpoll.1]
    rw [hch]
    exact hpoll.2.1
  · have hch : (Execute cfg env prompt timestamp).checks
        = (pollUntilComplete cfg env interactionID).checkTimes.length := by
      simp only [Execute, hstart, hpoll.1]
    rw [hch]
    exact hpoll.2.2

/-- Witness for C5: the always-running environment with interval 1 and
timeout 3 times out after between 2 and 4 in-progress checks and one cancel
call. -/
theorem Execute_interval1_timeout3_pollTimeout_witness :
    cfgA.PollInterval = 1 ∧ cfgA.PollTimeout = 3 ∧ envBusy.cancelAt = none
    ∧ ((Execute cfgA envBusy "p" "ts").result
        = Except.error (ExecError.pollFailed (PollOutcome.timedOut 3))
      ∧ (Execute cfgA envBusy "p" "ts").cancelOutcomes = [("job-1", cancelResearch envBusy)]
      ∧ 2 ≤ (Execute cfgA envBusy "p" "ts").checks
      ∧ (Execute cfgA envBusy "p" "ts").checks ≤ 4) :=
  ⟨rfl, rfl, rfl,
    Execute_interval1_timeout3_pollTimeout cfgA envBusy "job-1" "p" "ts" rfl rfl rfl rfl
      (fun i => ⟨{ InteractionID := "job-1", Status := "running"
                   Content := "", MarkdownPath := "" },
        rfl, by decide, by decide⟩)⟩

/-- C2: when the caller's cancellation signal fires strictly between the k-th
and (k+1)-th scheduled polls and before the timeout, the polling phase returns
the propagated cancellation exactly at the signal time (hence within one poll
interval), Execute wraps it after recording the one compensation cancel call,
the returned error is unchanged under any cancel outcome, and the cancel call
itself is insensitive to the caller's cancellation time (it runs under its own
fresh deadline). -/
theorem Execute_ctxCancel_between_polls (cfg : ViperConfig) (env : Env)
    (prompt timestamp interactionID : String) (k tc : Nat)
    (hc : env.cancelAt = some tc)
    (h1 : k * cfg.PollInterval < tc) (h2 : tc < (k + 1) * cfg.PollInterval)
    (h3 : tc < cfg.PollTimeout)
    (hstart : startResearchE env = Except.ok interactionID)
    (hst : ∀ i, i < k → ∃ r, checkStatusE env interactionID i = Except.ok r ∧
      r.Status ≠ "completed" ∧ r.Status ≠ "failed") :
    (pollUntilComplete cfg env interactionID).outcome = PollOutcome.ctxErr
    ∧ (pollUntilComplete cfg env interactionID).retTime = tc
    ∧ (pollUntilComplete cfg env interactionID).retTime < (k + 1) * cfg.PollInterval
    ∧ (Execute cfg env prompt timestamp).result
        = Except.error (ExecError.pollFailed PollOutcome.ctxErr)
    ∧ (Execute cfg env prompt timestamp).cancelOutcomes = [(interactionID, cancelResearch env)]
    ∧ (∀ c', (Execute cfg { env with cancelResp := c' } prompt timestamp).result
        = (Execute cfg env prompt timestamp).result)
    ∧ (∀ ca', cancelResearch { env with cancelAt := ca' } = cancelResearch env) := by
  have hsucc : (k + 1) * cfg.PollInterval = k * cfg.PollInterval + cfg.PollInterval :=
    Nat.succ_mul k cfg.PollInterval
  have hI : 1 ≤ cfg.PollInterval := by omega
  have hkT : k * cfg.PollInterval < cfg.PollTimeout := lt_trans h1 h3
  have hctx' : ∀ tc', env.cancelAt = some tc' → k * cfg.PollInterval < tc' := by
    intro tc' h
    rw [hc] at h
    cases h
    exact h1
  have hwake : wakeTime cfg env k (k * cfg.PollInterval) = tc := by
    rw [wakeTime, selChans, hc]
    simp only [List.cons_append, List.nil_append, List.foldr_cons, List.foldr_nil]
    omega
  have hready : readyChans cfg env k (k * cfg.PollInterval) = [Chan.ctxDone] := by
    rw [readyChans, selChans, hc, hwake]
    have p1 : max tc (k * cfg.PollInterval) = tc := by omega
    have p2 : ¬ (max cfg.PollTimeout (k * cfg.PollInterval) = tc) := by omega
    have p3 : ¬ (max ((k + 1) * cfg.PollInterval) (k * cfg.PollInterval) = tc) := by omega
    simp [List.filter, p1, p2, p3]
  have hch : chosenChan cfg env k (k * cfg.PollInterval) = Chan.ctxDone := by
    rw [chosenChan, hready]
    simp [Nat.mod_one]
  have hkdiv : k ≤ cfg.PollTimeout / cfg.PollInterval :=
    (Nat.le_div_iff_mul_le hI).mpr (le_of_lt hkT)
  have hfuel : cfg.PollTimeout / cfg.PollInterval + 2
      = (cfg.PollTimeout / cfg.PollInterval + 2 - k) + k := by omega
  obtain ⟨f', hf'⟩ : ∃ f', cfg.PollTimeout / cfg.PollInterval + 2 - k = f' + 1 :=
    ⟨cfg.PollTimeout / cfg.PollInterval + 1 - k, by omega⟩
  have hpre := pollGo_prefix cfg env interactionID k hkT hctx' hst
    (cfg.PollTimeout / cfg.PollInterval + 2 - k)
  have hpoll : pollUntilComplete cfg env interactionID
      = { outcome := PollOutcome.ctxErr, checkTimes := tickTimes cfg.PollInterval k
          retTime := tc } := by
    rw [pollUntilComplete, hfuel, hpre, hf',
      pollGo_ctx_step cfg env interactionID f' k (k * cfg.PollInterval)
        (tickTimes cfg.PollInterval k) hch, hwake]
  refine ⟨by rw [hpoll], by rw [hpoll], by rw [hpoll]; exact h2, ?_, ?_,
    fun c' => (Execute_ignores_cancelResp cfg env prompt timestamp c').1,
    fun ca' => rfl⟩
  · simp [Execute, hstart, hpoll]
  · simp [Execute, hstart, hpoll]

/-- Witness for C2: caller cancellation at time 3 with interval 2 and
timeout 10 lands between the polls at times 2 and 4; the run propagates the
cancellation at time 3 with one cancel call recorded. -/
theorem Execute_ctxCancel_between_polls_witness :
    envCancelMid.cancelAt = some 3
    ∧ 1 * cfgSlow.PollInterval < 3 ∧ 3 < 2 * cfgSlow.PollInterval
    ∧ 3 < cfgSlow.PollTimeout
    ∧ ((pollUntilComplete cfgSlow envCancelMid "job-1").outcome = PollOutcome.ctxErr
      ∧ (pollUntilComplete cfgSlow envCancelMid "job-1").retTime = 3
      ∧ (pollUntilComplete cfgSlow envCancelMid "job-1").retTime
          < (1 + 1) * cfgSlow.PollInterval
      ∧ (Execute cfgSlow envCancelMid "p" "ts").result
          = Except.error (ExecError.pollFailed PollOutcome.ctxErr)
      ∧ (Execute cfgSlow envCancelMid "p" "ts").cancelOutcomes
          = [("job-1", cancelResearch envCancelMid)]
      ∧ (∀ c', (Execute cfgSlow { envCancelMid with cancelResp := c' } "p" "ts").result
          = (Execute cfgSlow envCancelMid "p" "ts").result)
      ∧ (∀ ca', cancelResearch { envCancelMid with cancelAt := ca' }
          = cancelResearch envCancelMid)) :=
  ⟨rfl, by decide, by decide, by decide,
    Execute_ctxCancel_between_polls cfgSlow envCancelMid "p" "ts" "job-1" 1 3 rfl
      (by decide) (by decide) (by decide) rfl
      (fun i hi => ⟨{ InteractionID := "job-1", Status := "running"
                      Content := "", MarkdownPath := "" },
        rfl, by decide, by decide⟩)⟩

/-- C10: no status check ever happens before one full poll interval has
elapsed (every recorded check time is at least PollInterval), and when the
configured timeout is strictly smaller than the interval and the caller never
cancels, Execute times out without a single status check. -/
theorem no_zeroth_poll (cfg : ViperConfig) (env : Env)
    (interactionID prompt timestamp : String) :
    (∀ t ∈ (pollUntilComplete cfg env interactionID).checkTimes, cfg.PollInterval ≤ t)
    ∧ (cfg.PollTimeout < cfg.PollInterval → env.cancelAt = none →
        startResearchE env = Except.ok interactionID →
        (pollUntilComplete cfg env interactionID).outcome
            = PollOutcome.timedOut cfg.PollTimeout
        ∧ (pollUntilComplete cfg env interactionID).checkTimes = []
        ∧ (Execute cfg env prompt timestamp).checks = 0
        ∧ (Execute cfg env prompt timestamp).result
            = Except.error (ExecError.pollFailed (PollOutcome.timedOut cfg.PollTimeout))) := by
  constructor
  · rw [pollUntilComplete]
    exact pollGo_checkTimes_ge cfg env interactionID _ 0 0 [] (Nat.zero_le _)
      (by intro t ht; cases ht)
  · intro hTI hcnone hstart
    have h1I : 1 * cfg.PollInterval = cfg.PollInterval := one_mul _
    have hwake : wakeTime cfg env 0 0 = cfg.PollTimeout := by
      rw [wakeTime, selChans, hcnone]
      simp only [List.nil_append, List.foldr_cons, List.foldr_nil]
      omega
    have hready : readyChans cfg env 0 0 = [Chan.timeoutCh] := by
      rw [readyChans, selChans, hcnone, hwake]
      have p1 : max cfg.PollTimeout 0 = cfg.PollTimeout := by omega
      have p2 : ¬ (max ((0 + 1) * cfg.PollInterval) 0 = cfg.PollTimeout) := by
        rw [Nat.zero_add, h1I]
        omega
      simp [List.filter, p1, p2, (show cfg.PollInterval ≠ cfg.PollTimeout by omega)]
    have hch : chosenChan cfg env 0 0 = Chan.timeoutCh := by
      rw [chosenChan, hready]
      simp
    have hpoll : pollUntilComplete cfg env interactionID
        = { outcome := PollOutcome.timedOut cfg.PollTimeout, checkTimes := []
            retTime := cfg.PollTimeout } := by
      rw [pollUntilComplete]
      have e2 : pollGo cfg env interactionID
          ((cfg.PollTimeout / cfg.PollInterval + 1) + 1) 0 0 []
          = { outcome := PollOutcome.timedOut cfg.PollTimeout, checkTimes := []
              retTime := cfg.PollTimeout } := by
        rw [pollGo_timeout_step cfg env interactionID
          (cfg.PollTimeout / cfg.PollInterval + 1) 0 0 [] hch, hwake]
      exact e2
    exact ⟨by rw [hpoll], by rw [hpoll], by simp [Execute, hstart, hpoll],
      by simp [Execute, hstart, hpoll]⟩

/-- Witness for C10: interval 5 with timeout 3 and no cancellation: the run
times out at once with zero checks. -/
theorem no_zeroth_poll_witness :
    cfgShortTimeout.PollTimeout < cfgShortTimeout.PollInterval
    ∧ ((∀ t ∈ (pollUntilComplete cfgShortTimeout envBusy "job-1").checkTimes,
          cfgShortTimeout.PollInterval ≤ t)
      ∧ (cfgShortTimeout.PollTimeout < cfgShortTimeout.PollInterval →
          envBusy.cancelAt = none →
          startResearchE envBusy = Except.ok "job-1" →
          (pollUntilComplete cfgShortTimeout envBusy "job-1").outcome
              = PollOutcome.timedOut cfgShortTimeout.PollTimeout
          ∧ (pollUntilComplete cfgShortTimeout envBusy "job-1").checkTimes = []
          ∧ (Execute cfgShortTimeout envBusy "p" "ts").checks = 0
          ∧ (Execute cfgShortTimeout envBusy "p" "ts").result
              = Except.error
                  (ExecError.pollFailed
                    (PollOutcome.timedOut cfgShortTimeout.PollTimeout)))) :=
  ⟨by decide, no_zeroth_poll cfgShortTimeout envBusy "job-1" "p" "ts"⟩

/-- C7 counterexample: a job whose very first status check reports completed
and whose persistence succeeds can still return an empty content — the
completed response simply has no text output — refuting the unconditional
non-emptiness in the claim. -/
theorem Execute_firstPoll_completed_emptyContent :
    checkStatusE envDoneNoText "job-1" 0
      = Except.ok { InteractionID := "job-1", Status := "completed"
                    Content := "", MarkdownPath := "" }
    ∧ envDoneNoText.writeOk = true
    ∧ (Execute cfgA envDoneNoText "p" "ts").result
      = Except.ok { InteractionID := "job-1", Status := "completed"
                    Content := "", MarkdownPath := "out/research/ts.md" } :=
  ⟨rfl, rfl, rfl⟩

/-- C7 (amended): for a job whose very first status check succeeds with status
completed and whose persistence succeeds, Execute returns success, the result's
content is exactly the text extracted from the completed response — hence
non-empty whenever that text is — and the recorded markdown path was written
to disk with that content. -/
theorem Execute_firstPoll_completed (cfg : ViperConfig) (env : Env)
    (interactionID prompt timestamp : String) (r : ResearchResult)
    (hI : 1 ≤ cfg.PollInterval) (hIT : cfg.PollInterval < cfg.PollTimeout)
    (hc : env.cancelAt = none)
    (hstart : startResearchE env = Except.ok interactionID)
    (h0 : checkStatusE env interactionID 0 = Except.ok r)
    (hcomp : r.Status = "completed")
    (hw : env.writeOk = true) :
    (Execute cfg env prompt timestamp).result
      = Except.ok { r with MarkdownPath := cfg.ResearchDir ++ "/" ++ timestamp ++ ".md" }
    ∧ (cfg.ResearchDir ++ "/" ++ timestamp ++ ".md", r.Content)
        ∈ (Execute cfg env prompt timestamp).written
    ∧ (r.Content ≠ "" →
        ∃ res, (Execute cfg env prompt timestamp).result = Except.ok res
          ∧ res.Content ≠ "") := by
  have hsel := select_tick_only cfg env 0 0 (Nat.zero_le _)
    (by rw [Nat.zero_add, one_mul]; exact hIT)
    (by intro tc htc; rw [hc] at htc; cases htc)
  have hch : chosenChan cfg env 0 0 = Chan.tick := by
    rw [chosenChan, hsel.2]
    simp [Nat.mod_one]
  have hpoll : pollUntilComplete cfg env interactionID
      = { outcome := PollOutcome.completed r
          checkTimes := [(0 + 1) * cfg.PollInterval]
          retTime := (0 + 1) * cfg.PollInterval } := by
    rw [pollUntilComplete]
    have e2 : pollGo cfg env interactionID
        ((cfg.PollTimeout / cfg.PollInterval + 1) + 1) 0 0 []
        = { outcome := PollOutcome.completed r
            checkTimes := [(0 + 1) * cfg.PollInterval]
            retTime := (0 + 1) * cfg.PollInterval } := by
      simp only [pollGo, hch, h0, hcomp, hsel.1]
      simp
    exact e2
  refine ⟨?_, ?_, ?_⟩
  · simp [Execute, hstart, hpoll, saveResult, hw]
  · simp [Execute, hstart, hpoll, saveResult, hw]
  · intro hne
    refine ⟨{ r with MarkdownPath := cfg.ResearchDir ++ "/" ++ timestamp ++ ".md" }, ?_, ?_⟩
    · simp [Execute, hstart, hpoll, saveResult, hw]
    · simpa using hne

/-- Witness for C7 (amended): a job completed at the first check with the text
"research markdown"; Execute succeeds with that content and records the
written path. -/
theorem Execute_firstPoll_completed_witness :
    1 ≤ cfgA.PollInterval ∧ cfgA.PollInterval < cfgA.PollTimeout
    ∧ envDone.cancelAt = none ∧ envDone.writeOk = true
    ∧ ((Execute cfgA envDone "p" "ts").result
        = Except.ok { InteractionID := "job-1", Status := "completed"
                      Content := "research markdown"
                      MarkdownPath := cfgA.ResearchDir ++ "/" ++ "ts" ++ ".md" }
      ∧ (cfgA.ResearchDir ++ "/" ++ "ts" ++ ".md", "research markdown")
          ∈ (Execute cfgA envDone "p" "ts").written
      ∧ ("research markdown" ≠ "" →
          ∃ res, (Execute cfgA envDone "p" "ts").result = Except.ok res
            ∧ res.Content ≠ "")) := by
  refine ⟨by decide, by decide, rfl, rfl, ?_⟩
  exact Execute_firstPoll_completed cfgA envDone "job-1" "p" "ts"
    { InteractionID := "job-1", Status := "completed"
      Content := "research markdown", MarkdownPath := "" }
    (by decide) (by decide) rfl rfl rfl rfl rfl

end Deepviz
